import Mathlib

/-!
Verification of the bulk ingestion pipeline of `cargador_optimizado.py`
(class `FacturasZipLoaderOptimizado` and `main`).

The embedding models:
  * JSON values as an inductive type `Json` (Python `json.load` results),
    together with Python truthiness (`Json.truthy`) and Python dict
    item assignment (`setItem`, which raises `TypeError` on non-dicts);
  * the open ZIP archive as an association list from entry name to
    `EntryContent` (either bytes that parse to a JSON value, or invalid
    bytes that make `json.load` raise);
  * `load_json_fast`, `analyze_zip_structure`, `process_folder`,
    `execute_batch`, `create_indexes`, `run_complete_process` and `main`
    as executable Lean functions, with Python exceptions modelled by
    `Except` (an uncaught exception aborts with the state at the raise).

Identifiers (entry names, folder names) are Lean `String`s; the Python
string operations used by the source (`str.replace` with one-character
arguments, `str.lower`, `str.split('/')`, `str.endswith`) are modelled
charwise on `String.data`, which matches Python on the ASCII names the
pipeline manipulates.
-/

/-- A JSON value, as produced by Python's `json.load`.  Objects are kept as
ordered key/value lists, matching insertion-ordered Python dicts (parsed
dicts have unique keys). Numbers are modelled as integers; no claim under
verification depends on fractional values. -/
inductive Json where
  | null
  | bool (b : Bool)
  | num (n : Int)
  | str (s : String)
  | arr (xs : List Json)
  | obj (kvs : List (String × Json))


/-- Python truthiness of a decoded JSON value (`if json_data:` in
`process_folder`): `None`, `False`, `0`, `""`, `[]` and `{}` are falsy. -/
def Json.truthy : Json → Bool
  | .null => false
  | .bool b => b
  | .num n => n != 0
  | .str s => !s.data.isEmpty
  | .arr xs => !xs.isEmpty
  | .obj kvs => !kvs.isEmpty

/-- Lookup of a key in a Python dict modelled as an ordered key/value list
(first, and for a genuine dict only, occurrence). -/
def getKey : List (String × Json) → String → Option Json
  | [], _ => none
  | (k', v') :: rest, k => if k' = k then some v' else getKey rest k

/-- Python dict assignment `d[k] = v` on the ordered key/value list: update
the existing key in place, or append the new key at the end. -/
def setKey : List (String × Json) → String → Json → List (String × Json)
  | [], k, v => [(k, v)]
  | (k', v') :: rest, k, v =>
    if k' = k then (k, v) :: rest else (k', v') :: setKey rest k v

/-- Field access on a JSON value (`sample['factura_num']`-style); `none` on
non-objects, where Python would raise or answer `False` to `in`. -/
def Json.getField : Json → String → Option Json
  | .obj kvs, k => getKey kvs k
  | _, _ => none

/-- Python item assignment `json_data[k] = v` (line 254/255 of the source):
succeeds only on dicts; on any other decoded value (list, string, number,
boolean) Python raises `TypeError`, which `process_folder` does not catch. -/
def setItem : Json → String → Json → Except String Json
  | .obj kvs, k, v => .ok (.obj (setKey kvs k v))
  | _, _, _ => .error "TypeError: item assignment on a non-dict value"

/-- The bytes of one archive entry: either they parse as a JSON value, or
`json.load` raises `JSONDecodeError` on them. -/
inductive EntryContent where
  | invalid
  | valid (v : Json)


/-- The open ZIP archive: an association list from entry name to content. -/
abbrev Archive := List (String × EntryContent)

/-- Locating an entry inside the open archive (`zip_file.open(file_path)`);
`none` models the `KeyError` for an absent entry. -/
def lookupEntry : Archive → String → Option EntryContent
  | [], _ => none
  | (n, c) :: rest, p => if n = p then some c else lookupEntry rest p

/-- Model of `FacturasZipLoaderOptimizado.load_json_fast` (lines 198-214):
returns the parsed JSON document, or `None` when the archive handle is
absent (`self.zip_file is None`), the entry cannot be located (`KeyError`),
or the bytes are not valid JSON (`json.JSONDecodeError`). -/
def loadJsonFast (zipFile : Option Archive) (filePath : String) : Option Json :=
  match zipFile with
  | none => none
  | some ar =>
    match lookupEntry ar filePath with
    | none => none
    | some EntryContent.invalid => none
    | some (EntryContent.valid v) => some v

/-- Charwise single-character replacement, the semantics of Python
`s.replace(' ', '_')` for one-character pattern and replacement. -/
def replaceChar (c1 c2 : Char) (s : List Char) : List Char :=
  s.map (fun c => if c = c1 then c2 else c)

/-- Model of `folder_name.replace(' ', '_').lower()` (source line 231 and
line 412): replace spaces by underscores, then lowercase.  `Char.toLower`
agrees with Python `str.lower` on the ASCII folder names in scope. -/
def canonicalize (s : String) : String :=
  String.mk ((replaceChar ' ' '_' s.data).map Char.toLower)

/-- Splitting on a single separator character, the semantics of Python
`filename.split('/')` (always at least one, possibly empty, segment). -/
def splitOnChar (sep : Char) : List Char → List (List Char)
  | [] => [[]]
  | c :: cs =>
    match splitOnChar sep cs with
    | [] => if c = sep then [[], []] else [[c]]
    | seg :: rest => if c = sep then [] :: seg :: rest else (c :: seg) :: rest

/-- Python `s.endswith(suffix)` on char lists. -/
def endsWithChars (suffix s : List Char) : Bool :=
  suffix.isSuffixOf s

/-- Appending an entry name under a folder key, preserving the insertion
order of folders, as Python's `defaultdict(list)` does. -/
def addEntry : List (String × List String) → String → String → List (String × List String)
  | [], fol, name => [(fol, [name])]
  | (f, names) :: rest, fol, name =>
    if f = fol then (f, names ++ [name]) :: rest
    else (f, names) :: addEntry rest fol name

/-- Model of `FacturasZipLoaderOptimizado.analyze_zip_structure`
(lines 173-196): keep entries whose name ends in `.json` and that are not
directory markers (name ending in `/`), group them by first path segment,
and put entries with no `/` under the default partition `root`. -/
def analyzeZipStructure (entryNames : List String) : List (String × List String) :=
  entryNames.foldl
    (fun acc name =>
      if endsWithChars ".json".data name.data && !endsWithChars "/".data name.data then
        match splitOnChar '/' name.data with
        | seg1 :: _ :: _ => addEntry acc (String.mk seg1) name
        | _ => addEntry acc "root" name
      else acc)
    []

/-- Mutable state of the `process_folder` loop (lines 234-276): the current
batch, the three counters of `stats`, and — for specification purposes —
the list of batches handed to `execute_batch` so far, in dispatch order. -/
structure LoopState where
  batch_data : List Json
  loaded : Nat
  failed : Nat
  batch_count : Nat
  dispatched : List (List Json)

/-- Initial loop state of `process_folder`. -/
def initState : LoopState :=
  { batch_data := [], loaded := 0, failed := 0, batch_count := 0, dispatched := [] }

/-- All records accumulated so far, in production order: records of the
dispatched batches followed by the current batch. -/
def LoopState.records (st : LoopState) : List Json :=
  st.dispatched.flatten ++ st.batch_data

/-- Provenance injection of `process_folder` (lines 254-255):
`json_data['_source_file'] = file_path` then
`json_data['_source_folder'] = folder_name`.  Raises (`Except.error`) when
the decoded value is not a dict. -/
def inject (v : Json) (p folder : String) : Except String Json :=
  match setItem v "_source_file" (.str p) with
  | .error e => .error e
  | .ok v1 => setItem v1 "_source_folder" (.str folder)

/-- One iteration of the `for file_path in file_list` loop of
`process_folder` (lines 249-276): decode via `load_json_fast`; on a truthy
result inject provenance, append to the batch, and dispatch the batch once
it reaches `batch_size`; on a falsy or absent result count a failure.  An
uncaught `TypeError` from provenance injection aborts the loop carrying
the state at the raise. -/
def processEntry (ar : Option Archive) (folder : String) (bs : Nat)
    (st : LoopState) (p : String) : Except (String × LoopState) LoopState :=
  match loadJsonFast ar p with
  | some v =>
    if v.truthy then
      match inject v p folder with
      | .error e => .error (e, st)
      | .ok r =>
        let batch := st.batch_data ++ [r]
        if bs ≤ batch.length then
          .ok { st with
                  batch_data := []
                  loaded := st.loaded + 1
                  batch_count := st.batch_count + 1
                  dispatched := st.dispatched ++ [batch] }
        else
          .ok { st with batch_data := batch, loaded := st.loaded + 1 }
    else .ok { st with failed := st.failed + 1 }
  | none => .ok { st with failed := st.failed + 1 }

/-- The whole entry loop of `process_folder`, iterated over the file list. -/
def processFiles (ar : Option Archive) (folder : String) (bs : Nat) :
    List String → LoopState → Except (String × LoopState) LoopState
  | [], st => .ok st
  | p :: ps, st =>
    match processEntry ar folder bs st p with
    | .error e => .error e
    | .ok st' => processFiles ar folder bs ps st'

/-- The `stats` dictionary returned by `process_folder` (timing fields of
the source are dropped: wall-clock time is outside the embedding). -/
structure Stats where
  total_files : Nat
  loaded_files : Nat
  failed_files : Nat
  batch_count : Nat

/-- Result of `process_folder`: its statistics and, for specification
purposes, the batches handed to `execute_batch`, in dispatch order. -/
structure FolderResult where
  stats : Stats
  batches : List (List Json)

/-- Model of `FacturasZipLoaderOptimizado.process_folder` (lines 216-288):
run the entry loop over `files`, then dispatch the final batch if it is
non-empty (`if batch_data:`, line 279). -/
def processFolder (ar : Option Archive) (folder : String) (files : List String)
    (bs : Nat) : Except (String × LoopState) FolderResult :=
  match processFiles ar folder bs files initState with
  | .error e => .error e
  | .ok st =>
    if st.batch_data.isEmpty then
      .ok { stats := { total_files := files.length, loaded_files := st.loaded,
                       failed_files := st.failed, batch_count := st.batch_count }
            batches := st.dispatched }
    else
      .ok { stats := { total_files := files.length, loaded_files := st.loaded,
                       failed_files := st.failed, batch_count := st.batch_count + 1 }
            batches := st.dispatched ++ [st.batch_data] }

/-- Whether `process_folder` counts an entry as successfully decoded: its
`load_json_fast` result must be present and truthy (`if json_data:`). -/
def decodeOk (ar : Option Archive) (p : String) : Bool :=
  match loadJsonFast ar p with
  | some v => v.truthy
  | none => false

/-- Outcome of one `insert_many` call as reported by the store: clean
success, a `BulkWriteError` with some documents rejected, or a total
failure of the call (any other exception). -/
inductive BulkOutcome where
  | success
  | bulkWriteError (rejected : Nat)
  | otherError (msg : String)

/-- The raw `collection.insert_many(batch_data, ordered=False,
bypass_document_validation=True)` call (lines 323-327): raises on a
`BulkWriteError` or on any other failure.  The store's behaviour is an
oracle mapping the batch to an outcome. -/
def insertManyUnordered (store : List Json → BulkOutcome)
    (batch : List Json) : Except String Unit :=
  match store batch with
  | .success => .ok ()
  | .bulkWriteError n => .error ("BulkWriteError: " ++ toString n ++ " documents rejected")
  | .otherError msg => .error msg

/-- The `try/except BulkWriteError/except Exception` wrapper of
`execute_batch` (lines 321-336): every exception is swallowed. -/
def tryCatchAll (action : Except String Unit) : Except String Unit :=
  match action with
  | .ok u => .ok u
  | .error _ => .ok ()

/-- Model of `FacturasZipLoaderOptimizado.execute_batch` (lines 290-336). -/
def executeBatch (store : List Json → BulkOutcome) (batch : List Json) :
    Except String Unit :=
  tryCatchAll (insertManyUnordered store batch)

/-- An index specification handed to `create_index`: a single field or the
two-field compound index of line 361. -/
inductive IndexSpec where
  | single (field : String)
  | compound (f1 f2 : String)
deriving Repr, DecidableEq

/-- The state of one destination collection as `create_indexes` sees it:
its name, the document probed by `find_one()` (a dict, or `none` for an
empty collection), and whether index creation raises for this collection
(modelling the per-collection `try/except` of lines 355-372). -/
structure CollectionState where
  name : String
  sample : Option (List (String × Json))
  indexFails : Bool

/-- Whether the probed document makes `if sample and 'factura_num' in
sample:` true: the dict must be truthy (non-empty) and contain the key. -/
def sampleHas (sample : List (String × Json)) (field : String) : Bool :=
  !sample.isEmpty && (getKey sample field).isSome

/-- The conditional business indexes of lines 364-368. -/
def businessIndexes (sample : Option (List (String × Json))) : List IndexSpec :=
  match sample with
  | none => []
  | some s =>
    (if sampleHas s "factura_num" then [IndexSpec.single "factura_num"] else [])
      ++ (if sampleHas s "fecha_hora" then [IndexSpec.single "fecha_hora"] else [])

/-- The full index sequence the `try` block of lines 355-368 would create
for one collection, in creation order. -/
def indexesFor (c : CollectionState) : List IndexSpec :=
  [IndexSpec.single "_source_file", IndexSpec.single "_source_folder",
   IndexSpec.compound "_source_folder" "_source_file"]
    ++ businessIndexes c.sample

/-- Outcome of the `try` block for one collection: the created indexes, or
the exception caught by the per-collection `except` (line 371). -/
def createIndexesFor (c : CollectionState) : Except String (List IndexSpec) :=
  if c.indexFails then .error "index creation failed" else .ok (indexesFor c)

/-- Model of `FacturasZipLoaderOptimizado.create_indexes` (lines 338-372):
iterate over the collection list; each collection's outcome is logged and
never propagated (the `except` is inside the `for` loop). -/
def createIndexes (cols : List CollectionState) :
    List (String × Except String (List IndexSpec)) :=
  cols.map (fun c => (c.name, createIndexesFor c))

/-- Configuration of one run of `main` (lines 441-495): the `MONGO_URI`
environment value, whether the MongoDB ping succeeds, and the entry list
of the ZIP archive with the content of each entry. -/
structure RunConfig where
  mongoUri : Option String
  connectOk : Bool
  archiveEntries : Archive

/-- Observable outcome of a run, for specification purposes: whether the
run succeeded, whether the archive was opened, how many documents were
handed to the store in dispatched batches, and whether a fatal error was
reported. -/
structure RunResult where
  success : Bool
  archiveOpened : Bool
  docsStored : Nat
  fatalError : Bool
deriving Repr, DecidableEq

/-- Number of documents a `process_folder` loop state has handed to
`execute_batch` so far. -/
def LoopState.dispatchedDocs (st : LoopState) : Nat :=
  (st.dispatched.map List.length).sum

/-- The per-folder loop of `run_complete_process` (lines 408-412), with the
fixed default batch size 8000: accumulate the number of documents handed to
the store; a `process_folder` exception aborts the loop (it propagates to
`main`, which reports a fatal error). -/
def runFolders (ar : Archive) : List (String × List String) → Nat → Nat × Bool
  | [], acc => (acc, false)
  | (fol, files) :: rest, acc =>
    match processFolder (some ar) fol files 8000 with
    | .ok res => runFolders ar rest (acc + (res.batches.map List.length).sum)
    | .error (_, st) => (acc + st.dispatchedDocs, true)

/-- Python truthiness of `os.getenv` results: `if not mongo_uri:` is taken
when the variable is absent or the empty string. -/
def falsyOptStr : Option String → Bool
  | none => true
  | some s => s.data.isEmpty

/-- Model of `FacturasZipLoaderOptimizado.run_complete_process`
(lines 374-426): connection failure returns before the archive is opened;
an archive with no JSON entries is fatal after opening; otherwise every
partition is processed in discovery order.  Index creation (line 415)
touches no documents and is modelled separately by `createIndexes`. -/
def runCompleteProcess (cfg : RunConfig) : RunResult :=
  if !cfg.connectOk then
    { success := false, archiveOpened := false, docsStored := 0, fatalError := true }
  else
    match analyzeZipStructure (cfg.archiveEntries.map Prod.fst) with
    | [] =>
      { success := false, archiveOpened := true, docsStored := 0, fatalError := true }
    | fs =>
      match runFolders cfg.archiveEntries fs 0 with
      | (docs, true) =>
        { success := false, archiveOpened := true, docsStored := docs, fatalError := true }
      | (docs, false) =>
        { success := true, archiveOpened := true, docsStored := docs, fatalError := false }

/-- Model of `main` (lines 441-495): an absent or empty `MONGO_URI` is
reported as fatal before the loader is even constructed; otherwise the run
proceeds, and any exception escaping `run_complete_process` has already
been folded into the `fatalError` flag. -/
def mainRun (cfg : RunConfig) : RunResult :=
  if falsyOptStr cfg.mongoUri then
    { success := false, archiveOpened := false, docsStored := 0, fatalError := true }
  else runCompleteProcess cfg

/-- Setting a key and reading it back yields the written value (Python dict
semantics). -/
lemma getKey_setKey_self (l : List (String × Json)) (k : String) (v : Json) :
    getKey (setKey l k v) k = some v := by
  induction l with
  | nil => simp [setKey, getKey]
  | cons hd tl ih =>
    obtain ⟨k', v'⟩ := hd
    by_cases h : k' = k
    · subst h
      simp [setKey, getKey]
    · simp [setKey, getKey, h, ih]

/-- Setting a key leaves every other key unchanged. -/
lemma getKey_setKey_ne (l : List (String × Json)) (k k' : String) (v : Json)
    (h : k ≠ k') : getKey (setKey l k v) k' = getKey l k' := by
  induction l with
  | nil => simp [setKey, getKey, h]
  | cons hd tl ih =>
    obtain ⟨a, b⟩ := hd
    by_cases ha : a = k
    · subst ha
      simp [setKey, getKey, h]
    · simp [setKey, getKey, ha, ih]

/-- Provenance injection succeeds exactly on dicts, and computes both
`setKey` updates. -/
lemma inject_obj (kvs : List (String × Json)) (p folder : String) :
    inject (Json.obj kvs) p folder
      = Except.ok (Json.obj (setKey (setKey kvs "_source_file" (Json.str p))
          "_source_folder" (Json.str folder))) := rfl

/-- Provenance injection never succeeds on a non-dict value. -/
lemma inject_not_obj (v : Json) (p folder : String) (r : Json)
    (hv : ∀ kvs, v ≠ Json.obj kvs) : inject v p folder ≠ Except.ok r := by
  cases v with
  | obj kvs => exact absurd rfl (hv kvs)
  | null => simp [inject, setItem]
  | bool b => simp [inject, setItem]
  | num n => simp [inject, setItem]
  | str s => simp [inject, setItem]
  | arr xs => simp [inject, setItem]

/-- After a successful provenance injection, both provenance fields read
back as the injected values — the provenance write wins over any key the
source document already defined. -/
lemma inject_fields (v : Json) (p folder : String) (r : Json)
    (h : inject v p folder = Except.ok r) :
    r.getField "_source_file" = some (Json.str p) ∧
    r.getField "_source_folder" = some (Json.str folder) := by
  cases v with
  | obj kvs =>
    rw [inject_obj] at h
    cases h
    refine ⟨?_, ?_⟩
    · show getKey _ "_source_file" = _
      rw [getKey_setKey_ne _ _ _ _ (by decide), getKey_setKey_self]
    · show getKey _ "_source_folder" = _
      rw [getKey_setKey_self]
  | null => simp [inject, setItem] at h
  | bool b => simp [inject, setItem] at h
  | num n => simp [inject, setItem] at h
  | str s => simp [inject, setItem] at h
  | arr xs => simp [inject, setItem] at h

/-- Complete case analysis of one successful loop iteration: either the
entry fails to decode (absent, invalid, or falsy) and only the failure
counter moves, or it decodes to a truthy value, provenance is injected,
and the record is appended — dispatching the batch exactly when it
reaches `bs`. -/
lemma processEntry_cases (ar : Option Archive) (folder : String) (bs : Nat)
    (st : LoopState) (p : String) (st' : LoopState)
    (h : processEntry ar folder bs st p = .ok st') :
    (decodeOk ar p = false ∧ st' = { st with failed := st.failed + 1 }) ∨
    (decodeOk ar p = true ∧
      ∃ v r, loadJsonFast ar p = some v ∧ v.truthy = true ∧
        inject v p folder = Except.ok r ∧
        ((bs ≤ st.batch_data.length + 1 ∧
           st' = { st with
                    batch_data := []
                    loaded := st.loaded + 1
                    batch_count := st.batch_count + 1
                    dispatched := st.dispatched ++ [st.batch_data ++ [r]] }) ∨
         (st.batch_data.length + 1 < bs ∧
           st' = { st with
                    batch_data := st.batch_data ++ [r]
                    loaded := st.loaded + 1 }))) := by
  unfold processEntry at h
  cases hload : loadJsonFast ar p with
  | none =>
    rw [hload] at h
    left
    refine ⟨by simp [decodeOk, hload], ?_⟩
    cases h
    rfl
  | some v =>
    rw [hload] at h
    cases htr : v.truthy with
    | false =>
      simp only [htr, Bool.false_eq_true, if_false] at h
      left
      refine ⟨by simp [decodeOk, hload, htr], ?_⟩
      cases h
      rfl
    | true =>
      simp only [htr, if_true] at h
      cases hinj : inject v p folder with
      | error e => rw [hinj] at h; cases h
      | ok r =>
        simp only [hinj] at h
        right
        refine ⟨by simp [decodeOk, hload, htr], v, r, rfl, htr, hinj, ?_⟩
        by_cases hlen : bs ≤ (st.batch_data ++ [r]).length
        · rw [if_pos hlen] at h
          cases h
          left
          refine ⟨by simpa using hlen, rfl⟩
        · rw [if_neg hlen] at h
          cases h
          right
          refine ⟨by simpa using Nat.lt_of_not_le hlen, rfl⟩

/-- Counter bookkeeping of the entry loop: every entry moves exactly one of
the two counters, `loaded` counts exactly the successfully decoded entries,
`failed` the rest, and `batch_count` stays in step with the number of
batches handed to `execute_batch`. -/
lemma processFiles_counts (ar : Option Archive) (folder : String) (bs : Nat) :
    ∀ (l : List String) (st st' : LoopState),
      processFiles ar folder bs l st = .ok st' →
      st'.loaded + st'.failed = st.loaded + st.failed + l.length ∧
      st'.loaded = st.loaded + (l.filter (decodeOk ar)).length ∧
      st'.failed = st.failed + (l.filter (fun p => !decodeOk ar p)).length ∧
      (st.batch_count = st.dispatched.length →
        st'.batch_count = st'.dispatched.length) := by
  intro l
  induction l with
  | nil =>
    intro st st' h
    simp only [processFiles, Except.ok.injEq] at h
    subst h
    simp
  | cons p ps ih =>
    intro st st' h
    simp only [processFiles] at h
    cases hpe : processEntry ar folder bs st p with
    | error e => rw [hpe] at h; cases h
    | ok st1 =>
      rw [hpe] at h
      obtain ⟨ih1, ih2, ih3, ih4⟩ := ih st1 st' h
      rcases processEntry_cases _ _ _ _ _ _ hpe with
        ⟨hdec, hst⟩ | ⟨hdec, v, r, _, _, _, ⟨_, hst⟩ | ⟨_, hst⟩⟩
      · subst hst
        simp only [List.filter_cons, hdec, Bool.not_false, if_true,
          Bool.false_eq_true, if_false, List.length_cons] at *
        refine ⟨by omega, by omega, by omega, fun hc => ih4 (by simpa using hc)⟩
      · subst hst
        simp only [List.filter_cons, hdec, Bool.not_true, if_true,
          Bool.false_eq_true, if_false, List.length_cons] at *
        refine ⟨by omega, by omega, by omega, fun hc => ih4 ?_⟩
        simpa using by omega
      · subst hst
        simp only [List.filter_cons, hdec, Bool.not_true, if_true,
          Bool.false_eq_true, if_false, List.length_cons] at *
        refine ⟨by omega, by omega, by omega, fun hc => ih4 (by simpa using hc)⟩

/-- Batch-size invariant of the entry loop: with a positive capacity, the
current batch always stays strictly below capacity (it is dispatched the
moment it reaches it), and every dispatched batch has exactly `bs`
records. -/
lemma processFiles_sizes (ar : Option Archive) (folder : String) (bs : Nat)
    (hbs : 0 < bs) :
    ∀ (l : List String) (st st' : LoopState),
      processFiles ar folder bs l st = .ok st' →
      st.batch_data.length < bs → (∀ b ∈ st.dispatched, b.length = bs) →
      st'.batch_data.length < bs ∧ ∀ b ∈ st'.dispatched, b.length = bs := by
  intro l
  induction l with
  | nil =>
    intro st st' h hlt hall
    simp only [processFiles, Except.ok.injEq] at h
    subst h
    exact ⟨hlt, hall⟩
  | cons p ps ih =>
    intro st st' h hlt hall
    simp only [processFiles] at h
    cases hpe : processEntry ar folder bs st p with
    | error e => rw [hpe] at h; cases h
    | ok st1 =>
      rw [hpe] at h
      rcases processEntry_cases _ _ _ _ _ _ hpe with
        ⟨_, hst⟩ | ⟨_, v, r, _, _, _, ⟨hlen, hst⟩ | ⟨hlen, hst⟩⟩
      · subst hst
        exact ih _ st' h hlt hall
      · subst hst
        refine ih _ st' h (by simpa using hbs) ?_
        intro b hb
        simp only [List.mem_append, List.mem_singleton] at hb
        rcases hb with hb | hb
        · exact hall b hb
        · subst hb
          simp only [List.length_append, List.length_cons, List.length_nil]
          omega
      · subst hst
        refine ih _ st' h (by simp; omega) hall

/-- Record bookkeeping of the entry loop: the accumulated records grow
append-only; every new record is a decoded, truthy document of one of the
processed entries with provenance injected; and every successfully decoded
entry contributes exactly such a record. -/
lemma processFiles_records (ar : Option Archive) (folder : String) (bs : Nat) :
    ∀ (l : List String) (st st' : LoopState),
      processFiles ar folder bs l st = .ok st' →
      ∃ new, st'.records = st.records ++ new ∧
        (∀ r ∈ new, ∃ p ∈ l, ∃ v, loadJsonFast ar p = some v ∧
          v.truthy = true ∧ inject v p folder = Except.ok r) ∧
        (∀ p ∈ l, decodeOk ar p = true → ∃ r ∈ new, ∃ v,
          loadJsonFast ar p = some v ∧ inject v p folder = Except.ok r) := by
  intro l
  induction l with
  | nil =>
    intro st st' h
    simp only [processFiles, Except.ok.injEq] at h
    subst h
    exact ⟨[], by simp, by simp, by simp⟩
  | cons p ps ih =>
    intro st st' h
    simp only [processFiles] at h
    cases hpe : processEntry ar folder bs st p with
    | error e => rw [hpe] at h; cases h
    | ok st1 =>
      rw [hpe] at h
      obtain ⟨new1, hrec, hprod, hcov⟩ := ih st1 st' h
      rcases processEntry_cases _ _ _ _ _ _ hpe with
        ⟨hdec, hst⟩ | ⟨hdec, v, r, hload, htr, hinj, ⟨hlen, hst⟩ | ⟨hlen, hst⟩⟩
      · subst hst
        refine ⟨new1, by simpa [LoopState.records] using hrec, ?_, ?_⟩
        · intro r hr
          obtain ⟨q, hq, hv⟩ := hprod r hr
          exact ⟨q, List.mem_cons_of_mem _ hq, hv⟩
        · intro q hq hdq
          rcases List.mem_cons.mp hq with hq | hq
          · subst hq
            rw [hdq] at hdec
            cases hdec
          · exact hcov q hq hdq
      · subst hst
        refine ⟨r :: new1, ?_, ?_, ?_⟩
        · rw [hrec]
          simp [LoopState.records, List.flatten_append]
        · intro r' hr'
          rcases List.mem_cons.mp hr' with hr' | hr'
          · subst hr'
            exact ⟨p, List.mem_cons_self _ _, v, hload, htr, hinj⟩
          · obtain ⟨q, hq, hv⟩ := hprod r' hr'
            exact ⟨q, List.mem_cons_of_mem _ hq, hv⟩
        · intro q hq hdq
          rcases List.mem_cons.mp hq with hq | hq
          · subst hq
            exact ⟨r, List.mem_cons_self _ _, v, hload, hinj⟩
          · obtain ⟨r', hr', hv⟩ := hcov q hq hdq
            exact ⟨r', List.mem_cons_of_mem _ hr', hv⟩
      · subst hst
        refine ⟨r :: new1, ?_, ?_, ?_⟩
        · rw [hrec]
          simp [LoopState.records]
        · intro r' hr'
          rcases List.mem_cons.mp hr' with hr' | hr'
          · subst hr'
            exact ⟨p, List.mem_cons_self _ _, v, hload, htr, hinj⟩
          · obtain ⟨q, hq, hv⟩ := hprod r' hr'
            exact ⟨q, List.mem_cons_of_mem _ hq, hv⟩
        · intro q hq hdq
          rcases List.mem_cons.mp hq with hq | hq
          · subst hq
            exact ⟨r, List.mem_cons_self _ _, v, hload, hinj⟩
          · obtain ⟨r', hr', hv⟩ := hcov q hq hdq
            exact ⟨r', List.mem_cons_of_mem _ hr', hv⟩

/-- When every truthy decoded value of the processed entries is a dict —
the shape `json.load` gives every well-formed factura document — the entry
loop never raises. -/
lemma processFiles_no_raise (ar : Option Archive) (folder : String) (bs : Nat) :
    ∀ (l : List String),
      (∀ p ∈ l, ∀ v, loadJsonFast ar p = some v → v.truthy = true →
        ∃ kvs, v = Json.obj kvs) →
      ∀ st, ∃ st', processFiles ar folder bs l st = .ok st' := by
  intro l
  induction l with
  | nil => exact fun _ st => ⟨st, rfl⟩
  | cons p ps ih =>
    intro hobj st
    have hps : ∀ q ∈ ps, ∀ v, loadJsonFast ar q = some v → v.truthy = true →
        ∃ kvs, v = Json.obj kvs :=
      fun q hq => hobj q (List.mem_cons_of_mem _ hq)
    cases hload : loadJsonFast ar p with
    | none =>
      obtain ⟨st', hst'⟩ := ih hps { st with failed := st.failed + 1 }
      refine ⟨st', ?_⟩
      simp only [processFiles, processEntry, hload]
      exact hst'
    | some v =>
      cases htr : v.truthy with
      | false =>
        obtain ⟨st', hst'⟩ := ih hps { st with failed := st.failed + 1 }
        refine ⟨st', ?_⟩
        simp only [processFiles, processEntry, hload, htr, Bool.false_eq_true,
          if_false]
        exact hst'
      | true =>
        obtain ⟨kvs, hv⟩ := hobj p (List.mem_cons_self _ _) v hload htr
        subst hv
        by_cases hlen : bs ≤ (st.batch_data ++
            [Json.obj (setKey (setKey kvs "_source_file" (Json.str p))
              "_source_folder" (Json.str folder))]).length
        · obtain ⟨st', hst'⟩ := ih hps _
          refine ⟨st', ?_⟩
          simp only [processFiles, processEntry, hload, htr, if_true, inject_obj,
            if_pos hlen]
          exact hst'
        · obtain ⟨st', hst'⟩ := ih hps _
          refine ⟨st', ?_⟩
          simp only [processFiles, processEntry, hload, htr, if_true, inject_obj,
            if_neg hlen]
          exact hst'

/-- Unfolding of `process_folder` around a completed entry loop: the final
statistics and the dispatched batch list, including the final possibly
undersized batch of line 279. -/
lemma processFolder_ok_cases (ar : Option Archive) (folder : String)
    (files : List String) (bs : Nat) (res : FolderResult)
    (h : processFolder ar folder files bs = .ok res) :
    ∃ st, processFiles ar folder bs files initState = .ok st ∧
      res.stats.total_files = files.length ∧
      res.stats.loaded_files = st.loaded ∧
      res.stats.failed_files = st.failed ∧
      res.batches.flatten = st.records ∧
      ((st.batch_data = [] ∧ res.batches = st.dispatched ∧
          res.stats.batch_count = st.batch_count) ∨
        (st.batch_data ≠ [] ∧ res.batches = st.dispatched ++ [st.batch_data] ∧
          res.stats.batch_count = st.batch_count + 1)) := by
  unfold processFolder at h
  cases hpf : processFiles ar folder bs files initState with
  | error e => rw [hpf] at h; cases h
  | ok st =>
    simp only [hpf] at h
    refine ⟨st, rfl, ?_⟩
    by_cases hbd : st.batch_data.isEmpty
    · rw [if_pos hbd] at h
      cases h
      have hbd' : st.batch_data = [] := List.isEmpty_iff.mp hbd
      refine ⟨rfl, rfl, rfl, ?_, Or.inl ⟨hbd', rfl, rfl⟩⟩
      simp [LoopState.records, hbd']
    · rw [if_neg hbd] at h
      cases h
      have hbd' : st.batch_data ≠ [] := by
        simpa [List.isEmpty_iff] using hbd
      refine ⟨rfl, rfl, rfl, ?_, Or.inr ⟨hbd', rfl, rfl⟩⟩
      simp [LoopState.records, List.flatten_append]

/-- C3: for every partition and every configured batch capacity greater
than zero, every batch handed to the Bulk Writer except possibly the final
one of the partition contains exactly the configured capacity of records,
no batch ever contains more than the capacity, and no empty batch is ever
dispatched. -/
theorem batch_capacity_respected (ar : Option Archive) (folder : String)
    (files : List String) (bs : Nat) (res : FolderResult) (hbs : 0 < bs)
    (h : processFolder ar folder files bs = .ok res) :
    (∀ b ∈ res.batches.dropLast, b.length = bs) ∧
    (∀ b ∈ res.batches, b.length ≤ bs) ∧
    (∀ b ∈ res.batches, b ≠ []) := by
  obtain ⟨st, hpf, -, -, -, -, hcase⟩ := processFolder_ok_cases _ _ _ _ _ h
  obtain ⟨hlt, hall⟩ := processFiles_sizes ar folder bs hbs files initState st hpf
    (by simpa [initState] using hbs) (by simp [initState])
  rcases hcase with ⟨hbd, hb, -⟩ | ⟨hbd, hb, -⟩
  · rw [hb]
    refine ⟨fun b hbm => hall b (List.dropLast_subset _ hbm), ?_, ?_⟩
    · exact fun b hbm => le_of_eq (hall b hbm)
    · intro b hbm
      have := hall b hbm
      intro hnil
      rw [hnil] at this
      simp at this
      omega
  · rw [hb]
    refine ⟨?_, ?_, ?_⟩
    · rw [List.dropLast_concat]
      exact fun b hbm => hall b hbm
    · intro b hbm
      rcases List.mem_append.mp hbm with hbm | hbm
      · exact le_of_eq (hall b hbm)
      · rw [List.mem_singleton.mp hbm]
        exact le_of_lt hlt
    · intro b hbm
      rcases List.mem_append.mp hbm with hbm | hbm
      · have := hall b hbm
        intro hnil
        rw [hnil] at this
        simp at this
        omega
      · rw [List.mem_singleton.mp hbm]
        exact hbd

/-- C9: after `process_folder` completes, the partition's statistics
satisfy loaded + failed = total = length of the entry list, and
`batch_count` equals the number of batches handed to `execute_batch`. -/
theorem stats_invariant (ar : Option Archive) (folder : String)
    (files : List String) (bs : Nat) (res : FolderResult)
    (h : processFolder ar folder files bs = .ok res) :
    res.stats.loaded_files + res.stats.failed_files = res.stats.total_files ∧
    res.stats.total_files = files.length ∧
    res.stats.batch_count = res.batches.length := by
  obtain ⟨st, hpf, htot, hload, hfail, -, hcase⟩ := processFolder_ok_cases _ _ _ _ _ h
  obtain ⟨hsum, -, -, hbc⟩ := processFiles_counts ar folder bs files initState st hpf
  have hbc' : st.batch_count = st.dispatched.length := hbc (by simp [initState])
  have hsum' : st.loaded + st.failed = files.length := by
    simpa [initState] using hsum
  rcases hcase with ⟨-, hb, hc⟩ | ⟨-, hb, hc⟩
  · exact ⟨by rw [htot, hload, hfail]; exact hsum', htot, by rw [hc, hbc', hb]⟩
  · refine ⟨by rw [htot, hload, hfail]; exact hsum', htot, ?_⟩
    rw [hc, hbc', hb]
    simp

/-- C4: every record of every dispatched batch carries the two provenance
fields; `_source_folder` holds the partition name and `_source_file` the
identifier of the entry that produced the record, even when the decoded
source document already defined keys with those names (the provenance
write wins). -/
theorem provenance_fields (ar : Option Archive) (folder : String)
    (files : List String) (bs : Nat) (res : FolderResult)
    (h : processFolder ar folder files bs = .ok res) :
    ∀ b ∈ res.batches, ∀ r ∈ b,
      r.getField "_source_folder" = some (Json.str folder) ∧
      ∃ p ∈ files, r.getField "_source_file" = some (Json.str p) ∧
        ∃ v, loadJsonFast ar p = some v ∧ v.truthy = true ∧
          inject v p folder = Except.ok r := by
  obtain ⟨st, hpf, -, -, -, hflat, -⟩ := processFolder_ok_cases _ _ _ _ _ h
  obtain ⟨new, hrec, hprod, -⟩ := processFiles_records ar folder bs files initState st hpf
  have hrec' : st.records = new := by
    simpa [initState, LoopState.records] using hrec
  intro b hb r hr
  have hrm : r ∈ st.records := by
    rw [← hflat]
    exact List.mem_flatten.mpr ⟨b, hb, hr⟩
  rw [hrec'] at hrm
  obtain ⟨p, hp, v, hload, htr, hinj⟩ := hprod r hrm
  obtain ⟨hfile, hfol⟩ := inject_fields v p folder r hinj
  exact ⟨hfol, p, hp, hfile, v, hload, htr, hinj⟩

/-- C1 counterexample: an entry whose bytes are syntactically valid JSON —
the empty object — is returned parsed by `load_json_fast`, yet
`process_folder` counts it as a failed decode and appends nothing, because
the accumulator tests `if json_data:` (Python truthiness) rather than
`is not None`. -/
theorem decode_counting_counterexample :
    loadJsonFast (some [("facturas/a.json", EntryContent.valid (Json.obj []))])
        "facturas/a.json" = some (Json.obj []) ∧
    processFolder (some [("facturas/a.json", EntryContent.valid (Json.obj []))])
        "facturas" ["facturas/a.json"] 8000
      = Except.ok { stats := { total_files := 1, loaded_files := 0,
                               failed_files := 1, batch_count := 0 }
                    batches := [] } :=
  ⟨rfl, rfl⟩

/-- C1 amended: an entry is counted as successfully decoded and appended to
the current batch exactly when its bytes parse as valid JSON whose parsed
value is truthy; the failed-decode counter is incremented — and the entry
skipped without aborting the partition — exactly when the bytes are not
valid JSON, the entry is absent, or the parsed value is falsy (such as the
empty object).  The hypothesis restricts truthy decoded values to JSON
objects, the shape of every well-formed factura document; a truthy
non-object would abort the partition with an uncaught `TypeError`. -/
theorem decode_accounting (a : Archive) (folder : String) (files : List String)
    (bs : Nat)
    (hobj : ∀ p ∈ files, ∀ v, loadJsonFast (some a) p = some v →
      v.truthy = true → ∃ kvs, v = Json.obj kvs) :
    ∃ res, processFolder (some a) folder files bs = .ok res ∧
      res.stats.loaded_files = (files.filter (decodeOk (some a))).length ∧
      res.stats.failed_files
        = (files.filter (fun p => !decodeOk (some a) p)).length ∧
      (∀ p ∈ files, decodeOk (some a) p = true →
        ∃ b ∈ res.batches, ∃ r ∈ b,
          r.getField "_source_file" = some (Json.str p)) := by
  obtain ⟨st, hpf⟩ := processFiles_no_raise (some a) folder bs files hobj initState
  cases hres : processFolder (some a) folder files bs with
  | error e =>
    unfold processFolder at hres
    simp only [hpf] at hres
    split at hres <;> cases hres
  | ok res =>
    refine ⟨res, rfl, ?_⟩
    obtain ⟨st2, hpf2, -, hload, hfail, hflat, -⟩ :=
      processFolder_ok_cases _ _ _ _ _ hres
    rw [hpf] at hpf2
    injection hpf2 with hpf2
    subst hpf2
    obtain ⟨-, hl, hf, -⟩ := processFiles_counts _ folder bs files initState st hpf
    obtain ⟨new, hrec, -, hcov⟩ := processFiles_records _ folder bs files initState st hpf
    have hrec' : st.records = new := by
      simpa [initState, LoopState.records] using hrec
    refine ⟨by rw [hload]; simpa [initState] using hl,
            by rw [hfail]; simpa [initState] using hf, ?_⟩
    intro p hp hdp
    obtain ⟨r, hr, v, -, hinj⟩ := hcov p hp hdp
    rw [← hrec'] at hr
    rw [← hflat] at hr
    obtain ⟨b, hb, hrb⟩ := List.mem_flatten.mp hr
    exact ⟨b, hb, r, hrb, (inject_fields v p folder r hinj).1⟩

/-- C2 counterexample: the archive can contain two distinct partitions —
here `A B` and `a_b`, both discovered by `analyze_zip_structure` — whose
canonicalized collection names coincide, so both partitions write into the
same destination collection. -/
theorem canonicalize_collision :
    (analyzeZipStructure ["A B/x.json", "a_b/y.json"]).map Prod.fst
        = ["A B", "a_b"] ∧
    "A B" ≠ "a_b" ∧
    canonicalize "A B" = canonicalize "a_b" :=
  ⟨rfl, by decide, rfl⟩

/-- C2 amended: on partition names that are already canonical (no spaces,
no characters changed by lowercasing), canonicalization is the identity,
so distinct partition names do map to distinct collection names. -/
theorem canonical_names_injective (s t : String)
    (hs : canonicalize s = s) (ht : canonicalize t = t) (hne : s ≠ t) :
    canonicalize s ≠ canonicalize t := by
  rw [hs, ht]
  exact hne

/-- Witness for the amended C2 at two concrete canonical partition names. -/
theorem canonical_names_injective_witness :
    canonicalize "compras" = "compras" ∧ canonicalize "ventas" = "ventas" ∧
    canonicalize "compras" ≠ canonicalize "ventas" :=
  ⟨rfl, rfl, canonical_names_injective "compras" "ventas" rfl rfl (by decide)⟩

/-- C5: `execute_batch` returns normally for every store behaviour — clean
success, partial failure (`BulkWriteError`), or total failure of the call —
so no exception ever propagates to the caller and the run continues with
the next batch. -/
theorem execute_batch_never_raises (store : List Json → BulkOutcome)
    (batch : List Json) : executeBatch store batch = Except.ok () := by
  unfold executeBatch tryCatchAll insertManyUnordered
  cases store batch <;> rfl

/-- C10: calling `load_json_fast` before the archive has been opened
returns `None` rather than raising — the same value a decode failure
produces, hence indistinguishable from one. -/
theorem load_without_open_handle (p : String) :
    loadJsonFast none p = none ∧
    loadJsonFast (some [(p, EntryContent.invalid)]) p = none := by
  refine ⟨rfl, ?_⟩
  simp [loadJsonFast, lookupEntry]

/-- C7: with an absent or empty connection string, or a store connection
that cannot be established, the run terminates with a fatal error before
the archive is opened and before any batch is dispatched, so zero
documents are handed to the store. -/
theorem fatal_before_archive (cfg : RunConfig)
    (h : falsyOptStr cfg.mongoUri = true ∨ cfg.connectOk = false) :
    mainRun cfg = { success := false, archiveOpened := false,
                    docsStored := 0, fatalError := true } := by
  unfold mainRun runCompleteProcess
  rcases h with h | h
  · rw [if_pos h]
  · by_cases hf : falsyOptStr cfg.mongoUri = true
    · rw [if_pos hf]
    · rw [if_neg hf, h]
      rfl

/-- Witness for C7: a run configured with no `MONGO_URI` over a non-empty
archive reports the fatal outcome with the archive unopened and zero
documents stored. -/
theorem fatal_before_archive_witness :
    falsyOptStr (none : Option String) = true ∧
    mainRun { mongoUri := none, connectOk := true,
              archiveEntries := [("a/x.json", EntryContent.valid (Json.obj [("k", Json.num 1)]))] }
      = { success := false, archiveOpened := false, docsStored := 0,
          fatalError := true } :=
  ⟨rfl, fatal_before_archive _ (Or.inl rfl)⟩

/-- The guard `if sample and 'factura_num' in sample:` coincides with plain
key presence: an empty (falsy) dict has no keys anyway. -/
lemma sampleHas_eq_isSome (s : List (String × Json)) (f : String) :
    sampleHas s f = (getKey s f).isSome := by
  cases s with
  | nil => simp [sampleHas, getKey]
  | cons hd tl => simp [sampleHas]

/-- C8: for every collection, the Index Builder creates the two provenance
indexes individually and then the compound index, in that order, followed
by an index on each business field exactly when that field is present on
the probed document; and the per-collection outcome is independent of any
failure on collections processed earlier, so one failure never blocks the
rest. -/
theorem index_builder_per_collection (pre post : List CollectionState)
    (c : CollectionState) :
    createIndexes (pre ++ c :: post)
        = createIndexes pre ++ (c.name, createIndexesFor c) :: createIndexes post ∧
    (c.indexFails = false →
      createIndexesFor c = Except.ok
        (IndexSpec.single "_source_file" :: IndexSpec.single "_source_folder" ::
          IndexSpec.compound "_source_folder" "_source_file" ::
            businessIndexes c.sample)) ∧
    (∀ s, c.sample = some s →
      ((IndexSpec.single "factura_num" ∈ businessIndexes c.sample ↔
          (getKey s "factura_num").isSome = true) ∧
        (IndexSpec.single "fecha_hora" ∈ businessIndexes c.sample ↔
          (getKey s "fecha_hora").isSome = true))) ∧
    (c.sample = none → businessIndexes c.sample = []) := by
  refine ⟨by simp [createIndexes], ?_, ?_, ?_⟩
  · intro hfail
    simp [createIndexesFor, hfail, indexesFor]
  · intro s hs
    rw [hs]
    simp only [businessIndexes, List.mem_append, sampleHas_eq_isSome]
    cases hfn : (getKey s "factura_num").isSome <;>
      cases hfh : (getKey s "fecha_hora").isSome <;>
        simp [hfn, hfh]
  · intro hs
    rw [hs]
    rfl

/-- Scenario A archive: three partitions holding 10, 5, and 0 well-formed
entries (the third partition's only entry is malformed bytes). -/
def arcA : Archive :=
  [("compras/f01.json", .valid (.obj [("factura_num", .num 1)])),
   ("compras/f02.json", .valid (.obj [("factura_num", .num 2)])),
   ("compras/f03.json", .valid (.obj [("factura_num", .num 3)])),
   ("compras/f04.json", .valid (.obj [("factura_num", .num 4)])),
   ("compras/f05.json", .valid (.obj [("factura_num", .num 5)])),
   ("compras/f06.json", .valid (.obj [("factura_num", .num 6)])),
   ("compras/f07.json", .valid (.obj [("factura_num", .num 7)])),
   ("compras/f08.json", .valid (.obj [("factura_num", .num 8)])),
   ("compras/f09.json", .valid (.obj [("factura_num", .num 9)])),
   ("compras/f10.json", .valid (.obj [("factura_num", .num 10)])),
   ("ventas/g01.json", .valid (.obj [("fecha_hora", .str "t1")])),
   ("ventas/g02.json", .valid (.obj [("fecha_hora", .str "t2")])),
   ("ventas/g03.json", .valid (.obj [("fecha_hora", .str "t3")])),
   ("ventas/g04.json", .valid (.obj [("fecha_hora", .str "t4")])),
   ("ventas/g05.json", .valid (.obj [("fecha_hora", .str "t5")])),
   ("vacia/bad.json", .invalid)]

/-- The entry lists of the three Scenario A partitions. -/
def filesA1 : List String :=
  ["compras/f01.json", "compras/f02.json", "compras/f03.json",
   "compras/f04.json", "compras/f05.json", "compras/f06.json",
   "compras/f07.json", "compras/f08.json", "compras/f09.json",
   "compras/f10.json"]

/-- Entry list of the second Scenario A partition. -/
def filesA2 : List String :=
  ["ventas/g01.json", "ventas/g02.json", "ventas/g03.json",
   "ventas/g04.json", "ventas/g05.json"]

/-- Entry list of the third Scenario A partition. -/
def filesA3 : List String := ["vacia/bad.json"]

/-- C6, Scenario A: with batch capacity 4, partition 1 dispatches batches
of sizes 4, 4, 2, partition 2 dispatches 4, 1, partition 3 dispatches no
batch, and 15 documents in total are handed to the store. -/
theorem scenario_A :
    analyzeZipStructure (arcA.map Prod.fst)
        = [("compras", filesA1), ("ventas", filesA2), ("vacia", filesA3)] ∧
    (processFolder (some arcA) "compras" filesA1 4).map
        (fun r => r.batches.map List.length) = Except.ok [4, 4, 2] ∧
    (processFolder (some arcA) "ventas" filesA2 4).map
        (fun r => r.batches.map List.length) = Except.ok [4, 1] ∧
    (processFolder (some arcA) "vacia" filesA3 4).map
        (fun r => r.batches.map List.length) = Except.ok [] ∧
    (match processFolder (some arcA) "compras" filesA1 4,
           processFolder (some arcA) "ventas" filesA2 4,
           processFolder (some arcA) "vacia" filesA3 4 with
      | .ok r1, .ok r2, .ok r3 =>
          r1.batches.flatten.length + r2.batches.flatten.length
            + r3.batches.flatten.length = 15
      | _, _, _ => False) :=
  ⟨rfl, rfl, rfl, rfl, rfl⟩

/-- A small concrete partition used to witness the folder-level theorems:
three well-formed documents (the first already spoofing `_source_file`)
and one malformed entry, processed with batch capacity 2. -/
def arcW : Archive :=
  [("w/a.json", .valid (.obj [("_source_file", .str "spoof"), ("x", .num 1)])),
   ("w/b.json", .valid (.obj [("y", .num 2)])),
   ("w/c.json", .valid (.obj [("z", .num 3)])),
   ("w/d.json", .invalid)]

/-- The entry list of the witness partition. -/
def filesW : List String := ["w/a.json", "w/b.json", "w/c.json", "w/d.json"]

/-- The result `process_folder` computes on the witness partition. -/
def resW : FolderResult :=
  { stats := { total_files := 4, loaded_files := 3, failed_files := 1,
               batch_count := 2 }
    batches :=
      [[Json.obj [("_source_file", Json.str "w/a.json"), ("x", Json.num 1),
                  ("_source_folder", Json.str "w")],
        Json.obj [("y", Json.num 2), ("_source_file", Json.str "w/b.json"),
                  ("_source_folder", Json.str "w")]],
       [Json.obj [("z", Json.num 3), ("_source_file", Json.str "w/c.json"),
                  ("_source_folder", Json.str "w")]]] }

/-- Witness for C3 on the concrete witness partition. -/
theorem batch_capacity_respected_witness :
    0 < 2 ∧ processFolder (some arcW) "w" filesW 2 = Except.ok resW ∧
    ((∀ b ∈ resW.batches.dropLast, b.length = 2) ∧
      (∀ b ∈ resW.batches, b.length ≤ 2) ∧
      (∀ b ∈ resW.batches, b ≠ [])) :=
  ⟨by decide, rfl,
    batch_capacity_respected (some arcW) "w" filesW 2 resW (by decide) rfl⟩

/-- Witness for C9 on the concrete witness partition. -/
theorem stats_invariant_witness :
    processFolder (some arcW) "w" filesW 2 = Except.ok resW ∧
    (resW.stats.loaded_files + resW.stats.failed_files = resW.stats.total_files ∧
      resW.stats.total_files = filesW.length ∧
      resW.stats.batch_count = resW.batches.length) :=
  ⟨rfl, stats_invariant (some arcW) "w" filesW 2 resW rfl⟩

/-- Witness for C4 on the concrete witness partition, whose first document
already spoofed `_source_file`. -/
theorem provenance_fields_witness :
    processFolder (some arcW) "w" filesW 2 = Except.ok resW ∧
    (∀ b ∈ resW.batches, ∀ r ∈ b,
      r.getField "_source_folder" = some (Json.str "w") ∧
      ∃ p ∈ filesW, r.getField "_source_file" = some (Json.str p) ∧
        ∃ v, loadJsonFast (some arcW) p = some v ∧ v.truthy = true ∧
          inject v p "w" = Except.ok r) :=
  ⟨rfl, provenance_fields (some arcW) "w" filesW 2 resW rfl⟩

/-- Witness for the amended C1 on the concrete witness partition. -/
theorem decode_accounting_witness :
    ∃ res, processFolder (some arcW) "w" filesW 2 = .ok res ∧
      res.stats.loaded_files = (filesW.filter (decodeOk (some arcW))).length ∧
      res.stats.failed_files
        = (filesW.filter (fun p => !decodeOk (some arcW) p)).length ∧
      (∀ p ∈ filesW, decodeOk (some arcW) p = true →
        ∃ b ∈ res.batches, ∃ r ∈ b,
          r.getField "_source_file" = some (Json.str p)) := by
  refine decode_accounting arcW "w" filesW 2 ?_
  intro p hp v hv htr
  fin_cases hp
  · injection hv with h
    exact ⟨_, h.symm⟩
  · injection hv with h
    exact ⟨_, h.symm⟩
  · injection hv with h
    exact ⟨_, h.symm⟩
  · simp [loadJsonFast, lookupEntry] at hv

/-- The failing collection used to witness C8. -/
def colBad : CollectionState :=
  { name := "bad", sample := none, indexFails := true }

/-- The succeeding collection used to witness C8, probing a document that
carries `factura_num` but not `fecha_hora`. -/
def colGood : CollectionState :=
  { name := "good", sample := some [("factura_num", Json.num 7)],
    indexFails := false }

/-- Witness for C8: the failing collection placed first does not disturb
the second collection's indexes, which include the conditional
`factura_num` index and omit `fecha_hora`. -/
theorem index_builder_witness :
    createIndexes [colBad, colGood]
        = createIndexes [colBad]
            ++ (colGood.name, createIndexesFor colGood) :: createIndexes [] ∧
    createIndexesFor colGood = Except.ok
      (IndexSpec.single "_source_file" :: IndexSpec.single "_source_folder" ::
        IndexSpec.compound "_source_folder" "_source_file" ::
          businessIndexes colGood.sample) ∧
    ((IndexSpec.single "factura_num" ∈ businessIndexes colGood.sample ↔
        (getKey [("factura_num", Json.num 7)] "factura_num").isSome = true) ∧
      (IndexSpec.single "fecha_hora" ∈ businessIndexes colGood.sample ↔
        (getKey [("factura_num", Json.num 7)] "fecha_hora").isSome = true)) :=
  ⟨(index_builder_per_collection [colBad] [] colGood).1,
    (index_builder_per_collection [colBad] [] colGood).2.1 rfl,
    (index_builder_per_collection [colBad] [] colGood).2.2.1 _ rfl⟩
